import Mathlib

/-!
Verification of the seo-crawler crawl engine against its specification.

The definitions below are a shallow embedding of the relevant parts of the
source (src/src/core/issue_detector.py, src/src/crawler.py, src/src/crawl_db.py).
Python strings are modelled by `String` / `List Char`, Python numbers by
`Nat`/`ℚ` (floating point is idealised as exact rational arithmetic), Python
dict/list truthiness by emptiness of Lean lists.  Components of the repository
whose source files are not present (the link manager's pending queue) are
modelled from the specification and marked as such.
-/

namespace SeoCrawler

/-! ## Python string primitives used by the issue detector

`str.lower()` is modelled per-character (ASCII case folding), `str.strip()`
removes leading and trailing whitespace. -/

/-- Model of Python `str.lower()` (ASCII case folding). -/
def pyLower (s : String) : String :=
  ⟨s.data.map Char.toLower⟩

/-- Model of Python `str.strip()`: drop leading and trailing whitespace. -/
def pyStrip (s : String) : String :=
  ⟨((s.data.dropWhile Char.isWhitespace).reverse.dropWhile Char.isWhitespace).reverse⟩

/-- `lower().strip()` as applied by `_calculate_content_similarity`. -/
def pyLowerStrip (s : String) : String := pyStrip (pyLower s)

/-! ## difflib.SequenceMatcher

`_text_similarity` calls `SequenceMatcher(None, text1, text2).ratio()`.
`ratio()` is `2*M/(len(a)+len(b))` where `M` is the total size of the matching
blocks found by the Ratcliff–Obershelp procedure: repeatedly take the longest
matching block (ties: smallest start in `a`, then smallest start in `b`) and
recurse on the pieces to its left and right.  For the short strings involved
here no junk/autojunk handling applies. -/

/-- Length of the longest common prefix of two character lists: the size of the
matching block starting at a given pair of positions. -/
def lcpLen : List Char → List Char → Nat
  | x :: xs, y :: ys => if x = y then lcpLen xs ys + 1 else 0
  | _, _ => 0

/-- One candidate update of `find_longest_match`'s running best block: the
block at `(i, j)` of size `k` replaces the current best only if strictly
larger (difflib updates on `k > bestsize`). -/
def blockUpd (a b : List Char) (best : Nat × Nat × Nat) (ij : Nat × Nat) :
    Nat × Nat × Nat :=
  let k := lcpLen (a.drop ij.1) (b.drop ij.2)
  if best.2.2 < k then (ij.1, ij.2, k) else best

/-- All candidate start positions, in the row-major order in which difflib's
scan first reaches the corresponding maximal blocks. -/
def blockCandidates (a b : List Char) : List (Nat × Nat) :=
  (List.range a.length).flatMap fun i => (List.range b.length).map fun j => (i, j)

/-- Model of `SequenceMatcher.find_longest_match` over the whole strings:
the matching block of maximal size, ties broken by smallest start in `a` and
then smallest start in `b`, starting from difflib's initial best `(0, 0, 0)`. -/
def findLongestMatch (a b : List Char) : Nat × Nat × Nat :=
  (blockCandidates a b).foldl (blockUpd a b) (0, 0, 0)

/-- `get_matching_blocks`' total matched size: take the longest block and
recurse on both sides (Ratcliff–Obershelp).  Every recursive call strictly
shrinks `a.length + b.length` (the block has size ≥ 1), so the fuel in
`matchTotal` below never runs out. -/
def matchTotalAux : Nat → List Char → List Char → Nat
  | 0, _, _ => 0
  | fuel + 1, a, b =>
    if (findLongestMatch a b).2.2 = 0 then 0
    else
      matchTotalAux fuel (a.take (findLongestMatch a b).1)
          (b.take (findLongestMatch a b).2.1) +
        (findLongestMatch a b).2.2 +
        matchTotalAux fuel (a.drop ((findLongestMatch a b).1 + (findLongestMatch a b).2.2))
          (b.drop ((findLongestMatch a b).2.1 + (findLongestMatch a b).2.2))

def matchTotal (a b : List Char) : Nat :=
  matchTotalAux (a.length + b.length) a b

/-- Model of `SequenceMatcher.ratio()`; difflib returns `1.0` when both
strings are empty. -/
def sequenceMatcherRatio (s1 s2 : String) : ℚ :=
  let la := s1.data.length
  let lb := s2.data.length
  if la + lb = 0 then 1
  else (2 * matchTotal s1.data s2.data : ℚ) / (la + lb)

/-! ## fnmatch-style glob matching and URL path extraction

`_should_exclude` parses the URL with `urllib.parse.urlparse` and tests the
path against each exclusion pattern: `fnmatch` when the pattern contains `*`,
otherwise equality or a leading-substring test.  `fnmatch` glob syntax:
`*` (any sequence), `?` (any single character), `[...]`/`[!...]` character
classes with ranges; an unterminated `[` is a literal. -/

/-- One compiled glob pattern token. -/
inductive GTok
  | star
  | anyChar
  | cls (neg : Bool) (items : List (Char × Char))
  | lit (c : Char)
deriving DecidableEq

/-- Does a non-`star` token match one character? -/
def tokMatches : GTok → Char → Bool
  | .star, _ => false
  | .anyChar, _ => true
  | .cls neg items, c =>
      let m := items.any fun p => decide (p.1 ≤ c) && decide (c ≤ p.2)
      if neg then !m else m
  | .lit x, c => c = x

/-- Character-class body: `a-b` is a range, anything else a literal
(regular-expression class semantics, as produced by `fnmatch.translate`). -/
def parseClassItems : List Char → List (Char × Char)
  | a :: '-' :: b :: rest => (a, b) :: parseClassItems rest
  | a :: rest => (a, a) :: parseClassItems rest
  | [] => []

/-- Scan for the closing `]`, returning the class body and the remainder. -/
def findClose : List Char → Option (List Char × List Char)
  | [] => none
  | ']' :: r => some ([], r)
  | c :: r => (findClose r).map fun p => (c :: p.1, p.2)

/-- A `]` directly after `[` (or `[!`) is a literal member of the class. -/
def splitClass : List Char → Option (List Char × List Char)
  | ']' :: r => (findClose r).map fun p => (']' :: p.1, p.2)
  | l => findClose l

/-- Compile a glob pattern to tokens.  The fuel argument is the pattern
length; every step consumes at least one character, so it never runs out. -/
def parseGlobAux : Nat → List Char → List GTok
  | 0, _ => []
  | _ + 1, [] => []
  | fuel + 1, '*' :: rest => .star :: parseGlobAux fuel rest
  | fuel + 1, '?' :: rest => .anyChar :: parseGlobAux fuel rest
  | fuel + 1, '[' :: rest =>
      let negRest : Bool × List Char :=
        match rest with
        | '!' :: r => (true, r)
        | _ => (false, rest)
      (match splitClass negRest.2 with
       | some p => .cls negRest.1 (parseClassItems p.1) :: parseGlobAux fuel p.2
       | none => .lit '[' :: parseGlobAux fuel rest)
  | fuel + 1, c :: rest => .lit c :: parseGlobAux fuel rest

def parseGlob (pattern : String) : List GTok :=
  parseGlobAux pattern.data.length pattern.data

/-- Anchored glob matching (fnmatch matches the whole string).  Every
recursive call shrinks `pattern length + string length`, so the fuel in
`globMatchToks` below never runs out. -/
def globMatchAux : Nat → List GTok → List Char → Bool
  | _ + 1, [], [] => true
  | _ + 1, [], _ :: _ => false
  | fuel + 1, .star :: ps, s =>
      (globMatchAux fuel ps s ||
        match s with
        | [] => false
        | _ :: cs => globMatchAux fuel (GTok.star :: ps) cs)
  | _ + 1, _ :: _, [] => false
  | fuel + 1, p :: ps, c :: cs => tokMatches p c && globMatchAux fuel ps cs
  | 0, _, _ => false

def globMatchToks (p : List GTok) (s : List Char) : Bool :=
  globMatchAux (p.length + s.length + 1) p s

/-- Model of `fnmatch.fnmatch(path, pattern)` (POSIX: no case folding). -/
def fnmatchPath (path pattern : String) : Bool :=
  globMatchToks (parseGlob pattern) path.data

/-- Model of Python `str.rstrip('*')`. -/
def rstripStar (s : String) : String :=
  ⟨(s.data.reverse.dropWhile (· = '*')).reverse⟩

/-- Characters allowed in a URL scheme after the initial letter. -/
def isSchemeChar (c : Char) : Bool :=
  c.isAlphanum || c = '+' || c = '-' || c = '.'

/-- `urlsplit` scheme removal: strip `scheme:` when the part before the first
`:` is a well-formed scheme. -/
def dropScheme (l : List Char) : List Char :=
  match l.findIdx? (· = ':') with
  | some i =>
      if 0 < i && (l.take i).all isSchemeChar &&
          (match l.head? with | some c => c.isAlpha | none => false) then
        l.drop (i + 1)
      else l
  | none => l

/-- `urlsplit` netloc removal: after `//`, drop up to the next `/`, `?` or
`#` (the delimiter starts the path). -/
def dropNetloc (l : List Char) : List Char :=
  match l with
  | '/' :: '/' :: rest => rest.dropWhile fun c => !(c = '/' || c = '?' || c = '#')
  | _ => l

def takeUntil (d : Char) (l : List Char) : List Char :=
  l.takeWhile (· ≠ d)

/-- Model of `urlparse(url).path` for the purposes of `_should_exclude`:
strip scheme, netloc, fragment and query. -/
def urlPath (url : String) : String :=
  ⟨takeUntil '?' (takeUntil '#' (dropNetloc (dropScheme url.data)))⟩

/-- Model of Python `str.startswith`. -/
def listStartsWith : List Char → List Char → Bool
  | _, [] => true
  | [], _ :: _ => false
  | c :: cs, p :: ps => c = p && listStartsWith cs ps

/-- Model of `IssueDetector._should_exclude`: the URL's path is tested
against each exclusion pattern; glob matching when the pattern contains `*`,
otherwise equality or `startswith(pattern.rstrip('*'))`. -/
def should_exclude (patterns : List String) (url : String) : Bool :=
  let path := urlPath url
  patterns.any fun pattern =>
    if pattern.data.contains '*' then fnmatchPath path pattern
    else decide (path = pattern) || listStartsWith path.data (rstripStar pattern).data

/-! ## The crawled-URL record and issue records

The fields below are the subset of the crawler's result dictionary consumed
by the issue detector.  Python dict truthiness is modelled by emptiness of
the corresponding list/string; numbers by `Nat`/`ℚ`. -/
structure ImageRecord where
  src : String
  alt : String
deriving DecidableEq

structure URLResult where
  url : String
  status_code : Nat
  title : String
  meta_description : String
  h1 : String
  word_count : Nat
  canonical_url : String
  viewport : String
  lang : String
  robots : String
  images : List ImageRecord
  og_tags : List (String × String)
  twitter_tags : List (String × String)
  json_ld : List String
  schema_org : List String
  response_time : ℚ
  size : Nat
  javascript_rendered : Bool

inductive IssueType
  | error
  | warning
  | info
deriving DecidableEq

structure Issue where
  url : String
  itype : IssueType
  category : String
  issue : String
  details : String
deriving DecidableEq

/-- Fixed-point rendering with one decimal digit (round half to even), used
for Python's `:.1f` format; Python's default float rendering elsewhere is
abstracted by the same formatter. -/
def round1HalfEven (q : ℚ) : ℤ :=
  let x := q * 10
  let f := ⌊x⌋
  let r := x - f
  if r < 1 / 2 then f
  else if 1 / 2 < r then f + 1
  else if f % 2 = 0 then f else f + 1

def format1f (q : ℚ) : String :=
  let t := round1HalfEven q
  toString (t / 10) ++ "." ++ toString (t.natAbs % 10)

/-! ## Per-page issue rules (`IssueDetector.detect_issues`) -/
def check_title_issues (r : URLResult) : List Issue :=
  if r.title = "" then
    [⟨r.url, .error, "SEO", "Missing Title Tag", "Page has no title tag"⟩]
  else if 60 < r.title.length then
    [⟨r.url, .warning, "SEO", "Title Too Long",
      "Title is " ++ toString r.title.length ++ " characters (recommended: ≤60)"⟩]
  else if r.title.length < 30 then
    [⟨r.url, .warning, "SEO", "Title Too Short",
      "Title is " ++ toString r.title.length ++ " characters (recommended: 30-60)"⟩]
  else []

def check_meta_description_issues (r : URLResult) : List Issue :=
  if r.meta_description = "" then
    [⟨r.url, .error, "SEO", "Missing Meta Description", "Page has no meta description"⟩]
  else if 160 < r.meta_description.length then
    [⟨r.url, .warning, "SEO", "Meta Description Too Long",
      "Description is " ++ toString r.meta_description.length ++ " characters (recommended: ≤160)"⟩]
  else if r.meta_description.length < 120 then
    [⟨r.url, .warning, "SEO", "Meta Description Too Short",
      "Description is " ++ toString r.meta_description.length ++ " characters (recommended: 120-160)"⟩]
  else []

def check_heading_issues (r : URLResult) : List Issue :=
  if r.h1 = "" then
    [⟨r.url, .error, "SEO", "Missing H1 Tag", "Page has no H1 heading"⟩]
  else []

def check_content_issues (r : URLResult) : List Issue :=
  if r.word_count < 300 then
    [⟨r.url, .warning, "Content", "Thin Content",
      "Page has only " ++ toString r.word_count ++ " words (recommended: ≥300)"⟩]
  else []

def get_status_code_message (s : Nat) : String :=
  if s = 400 then "Bad Request"
  else if s = 401 then "Unauthorized"
  else if s = 403 then "Forbidden"
  else if s = 404 then "Not Found"
  else if s = 405 then "Method Not Allowed"
  else if s = 406 then "Not Acceptable"
  else if s = 408 then "Request Timeout"
  else if s = 410 then "Gone"
  else if s = 429 then "Too Many Requests"
  else if s = 500 then "Internal Server Error"
  else if s = 501 then "Not Implemented"
  else if s = 502 then "Bad Gateway"
  else if s = 503 then "Service Unavailable"
  else if s = 504 then "Gateway Timeout"
  else if s = 505 then "HTTP Version Not Supported"
  else "HTTP " ++ toString s ++ " Error"

def check_technical_issues (r : URLResult) : List Issue :=
  (if 400 ≤ r.status_code ∧ r.status_code < 500 then
    [⟨r.url, .error, "Technical", toString r.status_code ++ " Client Error",
      get_status_code_message r.status_code⟩]
  else if 500 ≤ r.status_code then
    [⟨r.url, .error, "Technical", toString r.status_code ++ " Server Error",
      get_status_code_message r.status_code⟩]
  else if 300 ≤ r.status_code ∧ r.status_code < 400 then
    [⟨r.url, .info, "Technical", toString r.status_code ++ " Redirect",
      "URL redirects to another location"⟩]
  else []) ++
  (if r.canonical_url = "" then
    [⟨r.url, .warning, "Technical", "Missing Canonical URL",
      "Page has no canonical URL specified"⟩]
  else if r.canonical_url ≠ r.url then
    [⟨r.url, .warning, "Technical", "Canonical URL Different",
      "Canonical points to: " ++ r.canonical_url⟩]
  else [])

def check_mobile_issues (r : URLResult) : List Issue :=
  if r.viewport = "" then
    [⟨r.url, .error, "Mobile", "Missing Viewport Meta Tag", "Page is not mobile-optimized"⟩]
  else []

def check_accessibility_issues (r : URLResult) : List Issue :=
  (if r.lang = "" then
    [⟨r.url, .warning, "Accessibility", "Missing Language Attribute",
      "HTML tag has no lang attribute"⟩]
  else []) ++
  (let without_alt := r.images.filter fun img => img.alt = ""
   if without_alt ≠ [] then
    [⟨r.url, .warning, "Accessibility", "Images Without Alt Text",
      toString without_alt.length ++ " of " ++ toString r.images.length ++ " images lack alt text"⟩]
   else [])

def check_social_media_issues (r : URLResult) : List Issue :=
  (if r.og_tags = [] then
    [⟨r.url, .warning, "Social", "Missing OpenGraph Tags",
      "Page has no OpenGraph tags for social sharing"⟩]
  else []) ++
  (if r.twitter_tags = [] then
    [⟨r.url, .warning, "Social", "Missing Twitter Card Tags",
      "Page has no Twitter Card tags"⟩]
  else [])

def check_structured_data_issues (r : URLResult) : List Issue :=
  if r.json_ld = [] ∧ r.schema_org = [] then
    [⟨r.url, .info, "Structured Data", "No Structured Data",
      "Page has no JSON-LD or Schema.org markup"⟩]
  else []

def check_performance_issues (r : URLResult) : List Issue :=
  (if ¬r.javascript_rendered ∧ 3000 < r.response_time then
    [⟨r.url, .error, "Performance", "Slow Response Time",
      "Page took " ++ format1f r.response_time ++ "ms to respond (recommended: <3000ms)"⟩]
  else if ¬r.javascript_rendered ∧ 1000 < r.response_time then
    [⟨r.url, .warning, "Performance", "Moderate Response Time",
      "Page took " ++ format1f r.response_time ++ "ms to respond (recommended: <1000ms)"⟩]
  else []) ++
  (if 3 * 1024 * 1024 < r.size then
    [⟨r.url, .error, "Performance", "Large Page Size",
      "Page size is " ++ format1f ((r.size : ℚ) / 1024 / 1024) ++ "MB (recommended: <3MB)"⟩]
  else if 1 * 1024 * 1024 < r.size then
    [⟨r.url, .warning, "Performance", "Moderate Page Size",
      "Page size is " ++ format1f ((r.size : ℚ) / 1024 / 1024) ++ "MB (recommended: <1MB)"⟩]
  else [])

/-- Model of Python `sub in hay` substring containment. -/
def containsSub (hay sub : List Char) : Bool :=
  match hay with
  | [] => sub.isEmpty
  | _ :: t => listStartsWith hay sub || containsSub t sub

def check_indexability_issues (r : URLResult) : List Issue :=
  let robots := pyLower r.robots
  (if containsSub robots.data "noindex".data then
    [⟨r.url, .error, "Indexability", "Noindex Tag Present",
      "Page is BLOCKED from search engines - has noindex directive"⟩]
  else []) ++
  (if containsSub robots.data "nofollow".data then
    [⟨r.url, .error, "Indexability", "Nofollow Tag Present",
      "Links on this page are NOT followed by search engines - has nofollow directive"⟩]
  else [])

/-- Model of `IssueDetector.detect_issues`: the list of issues appended to
`detected_issues` for one crawled result.  An excluded URL is skipped before
any rule runs. -/
def detect_issues (patterns : List String) (r : URLResult) : List Issue :=
  if should_exclude patterns r.url then []
  else
    check_title_issues r ++ check_meta_description_issues r ++
    check_heading_issues r ++ check_content_issues r ++
    check_technical_issues r ++ check_mobile_issues r ++
    check_accessibility_issues r ++ check_social_media_issues r ++
    check_structured_data_issues r ++ check_performance_issues r ++
    check_indexability_issues r

/-! ## Content similarity and the duplicate-content pass -/

/-- Model of `IssueDetector._text_similarity`. -/
def text_similarity (t1 t2 : String) : ℚ :=
  if t1 = "" ∨ t2 = "" then 0 else sequenceMatcherRatio t1 t2

/-- Model of `IssueDetector._calculate_content_similarity`. -/
def calculate_content_similarity (r1 r2 : URLResult) : ℚ :=
  let title1 := pyLowerStrip r1.title
  let title2 := pyLowerStrip r2.title
  let desc1 := pyLowerStrip r1.meta_description
  let desc2 := pyLowerStrip r2.meta_description
  let h1_1 := pyLowerStrip r1.h1
  let h1_2 := pyLowerStrip r2.h1
  let title_sim := if title1 ≠ "" ∧ title2 ≠ "" then text_similarity title1 title2 else 0
  let desc_sim := if desc1 ≠ "" ∧ desc2 ≠ "" then text_similarity desc1 desc2 else 0
  let h1_sim := if h1_1 ≠ "" ∧ h1_2 ≠ "" then text_similarity h1_1 h1_2 else 0
  let word_count_sim :=
    if r1.word_count ≠ 0 ∧ r2.word_count ≠ 0 then
      let max_count := max r1.word_count r2.word_count
      let min_count := min r1.word_count r2.word_count
      if 0 < max_count then (min_count : ℚ) / max_count else 0
    else 0
  title_sim * 0.35 + desc_sim * 0.35 + h1_sim * 0.20 + word_count_sim * 0.10

/-- The similarity formula as the specification words it: a weighted sum
`0.35·S(title) + 0.35·S(meta_desc) + 0.20·S(h1) + 0.10·W(wc1, wc2)` where `S`
is the string ratio over lowercase-trimmed text (0 when either side is
empty) and `W = min/max` (0 when either word count is 0). -/
def specStringScore (a b : String) : ℚ :=
  if pyLowerStrip a = "" ∨ pyLowerStrip b = "" then 0
  else sequenceMatcherRatio (pyLowerStrip a) (pyLowerStrip b)

def specWordScore (w1 w2 : Nat) : ℚ :=
  if w1 = 0 ∨ w2 = 0 then 0 else (min w1 w2 : ℚ) / (max w1 w2 : ℚ)

def spec_similarity (r1 r2 : URLResult) : ℚ :=
  0.35 * specStringScore r1.title r2.title +
  0.35 * specStringScore r1.meta_description r2.meta_description +
  0.20 * specStringScore r1.h1 r2.h1 +
  0.10 * specWordScore r1.word_count r2.word_count

/-- Detail string of a duplicate-content issue:
`f'Content is {similarity*100:.1f}% similar to {other}'`. -/
def dupDetails (similarity : ℚ) (otherUrl : String) : String :=
  "Content is " ++ format1f (similarity * 100) ++ "% similar to " ++ otherUrl

def mkDupIssue (url : String) (similarity : ℚ) (otherUrl : String) : Issue :=
  ⟨url, .warning, "Duplication", "Duplicate Content Detected", dupDetails similarity otherUrl⟩

/-- `tuple(sorted([url1, url2]))`. -/
def pairKey (u1 u2 : String) : String × String :=
  if u1 ≤ u2 then (u1, u2) else (u2, u1)

/-- Inner loop of `detect_duplication_issues` for a fixed `r1`: iterate over
the results after it, skipping excluded URLs and already processed pairs;
returns the issues emitted and the updated processed-pair set. -/
def detect_duplication_inner (patterns : List String) (threshold : ℚ) (r1 : URLResult) :
    List URLResult → List (String × String) → List Issue × List (String × String)
  | [], processed => ([], processed)
  | r2 :: rest, processed =>
    if should_exclude patterns r2.url then
      detect_duplication_inner patterns threshold r1 rest processed
    else
      let key := pairKey r1.url r2.url
      if key ∈ processed then
        detect_duplication_inner patterns threshold r1 rest processed
      else
        let similarity := calculate_content_similarity r1 r2
        let here :=
          if threshold ≤ similarity then
            [mkDupIssue r1.url similarity r2.url, mkDupIssue r2.url similarity r1.url]
          else []
        let next := detect_duplication_inner patterns threshold r1 rest (key :: processed)
        (here ++ next.1, next.2)

/-- Outer loop of `detect_duplication_issues`: for each `r1` (skipping
excluded URLs entirely), run the inner loop over the later results. -/
def detect_duplication_outer (patterns : List String) (threshold : ℚ) :
    List URLResult → List (String × String) → List Issue
  | [], _ => []
  | r1 :: rest, processed =>
    if should_exclude patterns r1.url then
      detect_duplication_outer patterns threshold rest processed
    else
      let inner := detect_duplication_inner patterns threshold r1 rest processed
      inner.1 ++ detect_duplication_outer patterns threshold rest inner.2

/-- Model of `IssueDetector.detect_duplication_issues`: the issues appended
for the whole result list (processed-pair set starts empty). -/
def detect_duplication_issues (patterns : List String) (threshold : ℚ)
    (all_results : List URLResult) : List Issue :=
  detect_duplication_outer patterns threshold all_results []

/-- Issues the specification expects for the pairs `(r1, r2)` with `r2` a
later, non-excluded record: two warnings (one per URL, each naming the other
URL and the percentage) when the similarity reaches the threshold, nothing
otherwise. -/
def specInnerIssues (patterns : List String) (threshold : ℚ) (r1 : URLResult)
    (rest : List URLResult) : List Issue :=
  (rest.filter fun r2 => !should_exclude patterns r2.url).flatMap fun r2 =>
    let s := calculate_content_similarity r1 r2
    if threshold ≤ s then
      [mkDupIssue r1.url s r2.url, mkDupIssue r2.url s r1.url]
    else []

/-- The duplication pass as the specification words it: every unordered pair
of distinct non-excluded records taken once, two warnings per pair at or
above the threshold, nothing below it. -/
def spec_duplication_issues (patterns : List String) (threshold : ℚ) :
    List URLResult → List Issue
  | [] => []
  | r1 :: rest =>
    (if should_exclude patterns r1.url then []
     else specInnerIssues patterns threshold r1 rest) ++
    spec_duplication_issues patterns threshold rest

/-! ## The worker loop's URL budget (crawler.py `_crawl_worker`, 679-731)

The submit loop fills every free executor slot while `crawled < max_urls`;
every future that completes is appended and counted.  `workerIter` is one
pass of the outer `while` with `k` in-flight fetches completing during the
processing phase; `runWorker` drives it with a completion schedule and stops
at the loop's break conditions. -/
structure WorkerConfig where
  maxUrls : Nat
  maxWorkers : Nat
  maxDepth : Nat
deriving DecidableEq

structure WorkerState where
  pending : List (String × Nat)
  active : Nat
  crawled : Nat
deriving DecidableEq

/-- `while len(active_futures) < max_workers and crawled < max_urls`:
dequeue the next URL; drop it if `depth > max_depth` (`continue`), otherwise
submit it to the executor. -/
def submitLoop (cfg : WorkerConfig) (crawled : Nat) :
    List (String × Nat) → Nat → List (String × Nat) × Nat
  | [], active => ([], active)
  | (u, d) :: rest, active =>
    if active < cfg.maxWorkers ∧ crawled < cfg.maxUrls then
      if cfg.maxDepth < d then submitLoop cfg crawled rest active
      else submitLoop cfg crawled rest (active + 1)
    else ((u, d) :: rest, active)

/-- One outer iteration: fill the slots, then process the `k` futures that
completed (each appends its result and bumps `crawled`). -/
def workerIter (cfg : WorkerConfig) (k : Nat) (s : WorkerState) : WorkerState :=
  ⟨(submitLoop cfg s.crawled s.pending s.active).1,
   (submitLoop cfg s.crawled s.pending s.active).2 -
     min k (submitLoop cfg s.crawled s.pending s.active).2,
   s.crawled + min k (submitLoop cfg s.crawled s.pending s.active).2⟩

/-- The worker loop under a completion schedule; it breaks when
`crawled >= max_urls` or when the queue is drained with nothing in flight. -/
def runWorker (cfg : WorkerConfig) : List Nat → WorkerState → WorkerState
  | [], s => s
  | k :: ks, s =>
    let s2 := workerIter cfg k s
    if cfg.maxUrls ≤ s2.crawled then s2
    else if s2.pending = [] ∧ s2.active = 0 then s2
    else runWorker cfg ks s2

/-! ## Seed-path clamping and single-page crawls (crawler.py `start_crawl`, 210-222) -/

/-- `start_crawl` prepends `https://` when the seed has no scheme. -/
def normalizeSeedScheme (url : String) : String :=
  if listStartsWith url.data "http://".data || listStartsWith url.data "https://".data then url
  else "https://" ++ url

/-- `has_path = parsed.path and parsed.path not in ('/', '')`; when it holds
`max_depth` is set to 0 before the crawl starts. -/
def clampedMaxDepth (url : String) (maxDepth : Nat) : Nat :=
  let p := urlPath (normalizeSeedScheme url)
  if p ≠ "" ∧ p ≠ "/" then 0 else maxDepth

/-- Modelled from the spec: the Link Manager (§4.5) is not under src/; its
pending FIFO of `(url, depth)` pairs, the `all_discovered` gate on enqueue,
and `extract_links` called only when `depth < max_depth` are taken from the
specification.  `crawlFrom` is the sequential worker semantics over them:
dequeue, honour the `max_urls` budget and the `depth > max_depth` drop, record
the page, and enqueue its undiscovered links at `depth + 1` when
`depth < max_depth`. -/
def crawlFrom (links : String → List String) (maxDepth maxUrls : Nat) :
    Nat → List (String × Nat) → List String → List String → List String
  | 0, _, _, results => results.reverse
  | _ + 1, [], _, results => results.reverse
  | fuel + 1, (u, d) :: queue, discovered, results =>
    if maxUrls ≤ results.length then results.reverse
    else if maxDepth < d then
      crawlFrom links maxDepth maxUrls fuel queue discovered results
    else
      let fresh := if d < maxDepth then
          (links u).filter (fun v => ¬ discovered.contains v) else []
      crawlFrom links maxDepth maxUrls fuel
        (queue ++ fresh.map (fun v => (v, d + 1)))
        (discovered ++ fresh) (u :: results)

/-! ## Status lifecycle (crawler.py 322-372, 374-495; crawl_db.py
`set_crawl_status` 399-426, `get_resume_data` 561-571) -/
inductive CrawlStatus
  | running
  | paused
  | completed
  | stopped
  | failed
  | archived
deriving DecidableEq

/-- Crawler-side state relevant to status transitions: the stored status for
this crawl, the in-memory `is_running`/`is_paused` flags and whether
persistence is enabled. -/
structure CrawlerState where
  dbStatus : CrawlStatus
  isRunning : Bool
  isPaused : Bool
  dbEnabled : Bool
deriving DecidableEq

inductive CrawlOp
  | workerFinish
  | stop
  | pause
  | resumeInMemory
  | resumeFromStore
deriving DecidableEq

/-- `get_resume_data` / `resume_from_database` accept exactly these stored
statuses. -/
def resumableStatus (s : CrawlStatus) : Bool :=
  s = .paused || s = .failed || s = .running

def terminalStatus (s : CrawlStatus) : Bool :=
  s = .completed || s = .stopped || s = .failed

/-- Status effect of each operation, transcribed from the source:
the worker thread's completion epilogue writes `completed`; `stop_crawl`
writes `stopped` unconditionally (no status guard) whenever persistence is
enabled; `pause_crawl`/`resume_crawl` are guarded by the in-memory flags;
`resume_from_database` is guarded by the stored status being resumable and
then writes `running`. -/
def applyOp (op : CrawlOp) (s : CrawlerState) : CrawlerState :=
  match op with
  | .workerFinish =>
      if s.isRunning then
        { s with isRunning := false,
                 dbStatus := if s.dbEnabled then .completed else s.dbStatus }
      else s
  | .stop =>
      { s with isRunning := false, isPaused := false,
               dbStatus := if s.dbEnabled then .stopped else s.dbStatus }
  | .pause =>
      if s.isRunning then
        { s with isPaused := true,
                 dbStatus := if s.dbEnabled then .paused else s.dbStatus }
      else s
  | .resumeInMemory =>
      if s.isRunning && s.isPaused then
        { s with isPaused := false,
                 dbStatus := if s.dbEnabled then .running else s.dbStatus }
      else s
  | .resumeFromStore =>
      if s.isRunning then s
      else if resumableStatus s.dbStatus then
        { s with isRunning := true, dbStatus := .running, dbEnabled := true }
      else s

/-! ## Resume-from-store rejection (crawler.py 374-495, crawl_db.py 561-571) -/

/-- The stored crawl header row, as far as the resume guards consult it. -/
structure CrawlRow where
  status : CrawlStatus
  userId : Option Nat
deriving DecidableEq

/-- In-memory crawler fields touched by `resume_from_database`. -/
structure ResumeMemory where
  isRunning : Bool
  crawlId : Option Nat
  dbEnabled : Bool
  workerStarted : Bool
deriving DecidableEq

/-- Model of `crawl_db.get_resume_data`: `None` when the row is absent or its
status is not paused/failed/running. -/
def get_resume_data (row : Option CrawlRow) : Option CrawlRow :=
  match row with
  | none => none
  | some c => if resumableStatus c.status then some c else none

structure ResumeOutcome where
  ok : Bool
  mem : ResumeMemory
  statusWrite : Option CrawlStatus
deriving DecidableEq

/-- Model of `WebCrawler.resume_from_database`: reject while a crawl runs,
when the row is missing, when its status is not resumable (the in-crawler
re-check of line 389 is subsumed by `get_resume_data`), or when the caller
does not own the crawl; otherwise restore state, write `running` and start
the worker thread. -/
def resume_from_database (mem : ResumeMemory) (row : Option CrawlRow)
    (crawlId : Nat) (userId : Option Nat) : ResumeOutcome :=
  if mem.isRunning then ⟨false, mem, none⟩
  else
    match get_resume_data row with
    | none => ⟨false, mem, none⟩
    | some c =>
      if ¬resumableStatus c.status then ⟨false, mem, none⟩
      else if userId.isSome && decide (c.userId ≠ userId) then ⟨false, mem, none⟩
      else ⟨true,
        ⟨true, some crawlId, true, true⟩,
        some .running⟩

/-! ## Fetch-path effect traces (crawler.py 679-695, 781-818, 1046-1061)

Per-URL effect sequences of the two fetch paths, as the source performs
them.  The HTTP submit loop submits each task directly (the comment at line
693 defers rate limiting to the worker) and `_crawl_url_with_requests`
performs the optional HEAD and the GET; the async browser loop acquires a
rate-limiter token before creating the rendering task when `delay > 0`. -/
inductive FetchEvent
  | rateLimiterAcquire
  | httpHeadRequest
  | httpGetRequest
  | browserRender
deriving DecidableEq

/-- Effects for one URL on the HTTP path (`enable_javascript=false`), from
submission in `_crawl_worker` through `_crawl_url_with_requests`. -/
def http_path_events (_delay : ℚ) (max_file_size : Nat) : List FetchEvent :=
  (if 0 < max_file_size then [FetchEvent.httpHeadRequest] else []) ++
  [FetchEvent.httpGetRequest]

/-- Effects for one URL on the browser path, from the async submit loop in
`_crawl_async_with_js` through `_crawl_url_with_javascript`. -/
def js_path_events (delay : ℚ) : List FetchEvent :=
  (if 0 < delay then [FetchEvent.rateLimiterAcquire] else []) ++
  [FetchEvent.browserRender]

/-! ## `get_status` (crawler.py 497-541) -/
inductive StatusLabel
  | idle
  | running
  | completed
deriving DecidableEq

/-- Model of the status value computed by `get_status`:
`'completed' if not is_running and crawled > 0 else 'running'`, overridden to
`'idle'` when not running with nothing crawled.  The pause flag is never
consulted. -/
def get_status_label (is_running _is_paused : Bool) (crawled : Nat) : StatusLabel :=
  let status := if is_running = false ∧ 0 < crawled then StatusLabel.completed
                else StatusLabel.running
  if is_running = false ∧ crawled = 0 then StatusLabel.idle else status

/-! ## Concrete fixtures used by witnesses and counterexamples -/

/-- A result record with the fields the duplication pass reads; everything
else empty/zero. -/
def mkPage (u t d h : String) (wc : Nat) : URLResult :=
  ⟨u, 200, t, d, h, wc, "", "", "", "", [], [], [], [], [], 0, 0, false⟩

def recEmptyA : URLResult := mkPage "https://site.test/e1" "" "" "" 0

def recEmptyB : URLResult := mkPage "https://site.test/e2" "" "" "" 0

def recHomeA : URLResult := mkPage "https://site.test/a" "Home" "Welcome" "Hello" 500

def recHomeB : URLResult := mkPage "https://site.test/b" "Home" "Welcome" "Hello" 500

/-- Ten internal pages waiting in the queue at depth 0. -/
def tenPagePending : List (String × Nat) :=
  [("https://site.test/1", 0), ("https://site.test/2", 0), ("https://site.test/3", 0),
   ("https://site.test/4", 0), ("https://site.test/5", 0), ("https://site.test/6", 0),
   ("https://site.test/7", 0), ("https://site.test/8", 0), ("https://site.test/9", 0),
   ("https://site.test/10", 0)]

theorem lcpLen_le_left : ∀ a b : List Char, lcpLen a b ≤ a.length
  | [], _ => Nat.le_refl _
  | _ :: _, [] => by simp [lcpLen]
  | x :: xs, y :: ys => by
    simp only [lcpLen, List.length_cons]
    split
    · exact Nat.succ_le_succ (lcpLen_le_left xs ys)
    · exact Nat.zero_le _

theorem lcpLen_le_right : ∀ a b : List Char, lcpLen a b ≤ b.length
  | [], _ => Nat.zero_le _
  | _ :: _, [] => by simp [lcpLen]
  | x :: xs, y :: ys => by
    simp only [lcpLen, List.length_cons]
    split
    · exact Nat.succ_le_succ (lcpLen_le_right xs ys)
    · exact Nat.zero_le _

theorem lcpLen_self : ∀ a : List Char, lcpLen a a = a.length
  | [] => rfl
  | x :: xs => by simp [lcpLen, lcpLen_self xs]

/-- The fold never updates past a best whose size dominates all candidates. -/
theorem foldl_blockUpd_const (a b : List Char) (best : Nat × Nat × Nat)
    (l : List (Nat × Nat))
    (h : ∀ ij ∈ l, lcpLen (a.drop ij.1) (b.drop ij.2) ≤ best.2.2) :
    l.foldl (blockUpd a b) best = best := by
  induction l with
  | nil => rfl
  | cons x xs ih =>
    have hx := h x (List.mem_cons_self x xs)
    have hstep : blockUpd a b best x = best := by
      unfold blockUpd
      simp only
      rw [if_neg (Nat.not_lt.mpr hx)]
    rw [List.foldl_cons, hstep]
    exact ih fun ij hij => h ij (List.mem_cons_of_mem x hij)

/-- Block sizes returned by `findLongestMatch` are bounded by both string
lengths. -/
theorem findLongestMatch_bounds (a b : List Char) :
    let r := findLongestMatch a b
    r.1 + r.2.2 ≤ a.length ∧ r.2.1 + r.2.2 ≤ b.length := by
  unfold findLongestMatch
  have key : ∀ (l : List (Nat × Nat)) (best : Nat × Nat × Nat),
      best.1 + best.2.2 ≤ a.length → best.2.1 + best.2.2 ≤ b.length →
      (∀ ij ∈ l, ij.1 < a.length ∧ ij.2 < b.length) →
      (l.foldl (blockUpd a b) best).1 + (l.foldl (blockUpd a b) best).2.2 ≤ a.length ∧
      (l.foldl (blockUpd a b) best).2.1 + (l.foldl (blockUpd a b) best).2.2 ≤ b.length := by
    intro l
    induction l with
    | nil => intro best h1 h2 _; exact ⟨h1, h2⟩
    | cons x xs ih =>
      intro best h1 h2 hmem
      have hx := hmem x (List.mem_cons_self x xs)
      have hrest : ∀ ij ∈ xs, ij.1 < a.length ∧ ij.2 < b.length :=
        fun ij hij => hmem ij (List.mem_cons_of_mem x hij)
      rw [List.foldl_cons]
      rcases hnew : blockUpd a b best x with ⟨i', j', k'⟩
      have hb : (i' + k' ≤ a.length) ∧ (j' + k' ≤ b.length) := by
        unfold blockUpd at hnew
        simp only at hnew
        split at hnew
        · cases hnew
          constructor
          · have := lcpLen_le_left (a.drop x.1) (b.drop x.2)
            rw [List.length_drop] at this
            omega
          · have := lcpLen_le_right (a.drop x.1) (b.drop x.2)
            rw [List.length_drop] at this
            omega
        · cases hnew; exact ⟨h1, h2⟩
      exact ih (i', j', k') hb.1 hb.2 hrest
  apply key
  · exact Nat.zero_le _
  · exact Nat.zero_le _
  · intro ij hij
    unfold blockCandidates at hij
    simp only [List.mem_flatMap, List.mem_map, List.mem_range] at hij
    obtain ⟨i, hi, j, hj, rfl⟩ := hij
    exact ⟨hi, hj⟩

theorem findLongestMatch_self (a : List Char) (h : a ≠ []) :
    findLongestMatch a a = (0, 0, a.length) := by
  obtain ⟨n, hn⟩ : ∃ n, a.length = n + 1 := by
    cases a with
    | nil => exact absurd rfl h
    | cons x xs => exact ⟨xs.length, rfl⟩
  have hcand : ∃ t, blockCandidates a a = (0, 0) :: t := by
    unfold blockCandidates
    rw [hn, List.range_succ_eq_map]
    exact ⟨(List.range n).map (fun j => ((0 : Nat), j + 1)) ++
      ((List.range n).map (· + 1)).flatMap
        (fun i => (List.range (n + 1)).map fun j => (i, j)), by
      simp [List.range_succ_eq_map, List.flatMap_cons, Function.comp]⟩
  obtain ⟨t, ht⟩ := hcand
  unfold findLongestMatch
  rw [ht, List.foldl_cons]
  have hupd : blockUpd a a (0, 0, 0) (0, 0) = (0, 0, a.length) := by
    unfold blockUpd
    simp [lcpLen_self, hn]
  rw [hupd]
  exact foldl_blockUpd_const a a (0, 0, a.length) t fun ij _ =>
    le_trans (lcpLen_le_left _ _) (by simp)

theorem matchTotalAux_nil_nil : ∀ fuel, matchTotalAux fuel [] [] = 0
  | 0 => rfl
  | _ + 1 => by simp [matchTotalAux, findLongestMatch, blockCandidates]

theorem matchTotal_self (a : List Char) : matchTotal a a = a.length := by
  cases a with
  | nil => rfl
  | cons x xs =>
    show matchTotalAux ((x :: xs).length + (x :: xs).length) (x :: xs) (x :: xs) =
      (x :: xs).length
    rw [show (x :: xs).length + (x :: xs).length = ((x :: xs).length + xs.length) + 1 by
      simp; omega]
    rw [matchTotalAux, findLongestMatch_self (x :: xs) (by simp)]
    rw [if_neg (by simp)]
    simp [matchTotalAux_nil_nil]

/-- Identical strings have `ratio()` 1. -/
theorem sequenceMatcherRatio_self (s : String) : sequenceMatcherRatio s s = 1 := by
  unfold sequenceMatcherRatio
  by_cases h : s.data.length + s.data.length = 0
  · rw [if_pos h]
  · rw [if_neg h, matchTotal_self]
    have hlen : s.data.length ≠ 0 := by omega
    have hq : ((s.data.length : ℚ) + s.data.length) ≠ 0 := by
      have hpos : (0 : ℚ) < (s.data.length : ℚ) := by
        exact_mod_cast Nat.pos_of_ne_zero hlen
      positivity
    rw [div_eq_one_iff_eq hq]
    ring

theorem lcpLen_eq_zero_of_disjoint (a b : List Char)
    (h : ∀ c ∈ a, c ∉ b) : lcpLen a b = 0 := by
  cases a with
  | nil => rfl
  | cons x xs =>
    cases b with
    | nil => rfl
    | cons y ys =>
      have hx : x ≠ y := by
        intro hxy
        exact h x (List.mem_cons_self x xs) (hxy ▸ List.mem_cons_self y ys)
      simp [lcpLen, hx]

theorem findLongestMatch_disjoint (a b : List Char)
    (h : ∀ c ∈ a, c ∉ b) : findLongestMatch a b = (0, 0, 0) := by
  unfold findLongestMatch
  exact foldl_blockUpd_const a b (0, 0, 0) _ fun ij _ =>
    le_of_eq (lcpLen_eq_zero_of_disjoint _ _ fun c hc hcb =>
      h c (List.mem_of_mem_drop hc) (List.mem_of_mem_drop hcb))

theorem matchTotal_disjoint (a b : List Char)
    (h : ∀ c ∈ a, c ∉ b) : matchTotal a b = 0 := by
  unfold matchTotal
  cases hf : a.length + b.length with
  | zero => rfl
  | succ n => rw [matchTotalAux, findLongestMatch_disjoint a b h]; simp

/-- Strings sharing no character have `ratio()` 0. -/
theorem sequenceMatcherRatio_disjoint (s1 s2 : String)
    (hne : s1.data.length + s2.data.length ≠ 0)
    (h : ∀ c ∈ s1.data, c ∉ s2.data) : sequenceMatcherRatio s1 s2 = 0 := by
  unfold sequenceMatcherRatio
  rw [if_neg hne, matchTotal_disjoint s1.data s2.data h]
  simp

/-! ## Equivalence of the code's similarity with the specification's formula -/
theorem stringScore_code_eq (t1 t2 : String) :
    (if t1 ≠ "" ∧ t2 ≠ "" then text_similarity t1 t2 else 0) =
    (if t1 = "" ∨ t2 = "" then 0 else sequenceMatcherRatio t1 t2) := by
  by_cases h1 : t1 = "" <;> by_cases h2 : t2 = "" <;> simp [text_similarity, h1, h2]

theorem wordScore_code_eq (w1 w2 : Nat) :
    (if w1 ≠ 0 ∧ w2 ≠ 0 then
      (if 0 < max w1 w2 then ((min w1 w2 : Nat) : ℚ) / ((max w1 w2 : Nat) : ℚ) else 0)
    else 0) = specWordScore w1 w2 := by
  unfold specWordScore
  by_cases h1 : w1 = 0
  · simp [h1]
  · by_cases h2 : w2 = 0
    · simp [h2]
    · have hmax : 0 < max w1 w2 :=
        Nat.lt_of_lt_of_le (Nat.pos_of_ne_zero h1) (Nat.le_max_left _ _)
      simp [h1, h2, hmax]

theorem calculate_content_similarity_eq_spec (r1 r2 : URLResult) :
    calculate_content_similarity r1 r2 = spec_similarity r1 r2 := by
  simp only [calculate_content_similarity, spec_similarity]
  rw [stringScore_code_eq, stringScore_code_eq, stringScore_code_eq, wordScore_code_eq]
  unfold specStringScore
  ring

/-! ## The duplication pass agrees with the specification's per-pair reading
when the result URLs are pairwise distinct -/
theorem pairKey_eq_elim {a b c d : String} (h : pairKey a b = pairKey c d) :
    (a = c ∧ b = d) ∨ (a = d ∧ b = c) := by
  unfold pairKey at h
  split at h <;> split at h <;> simp only [Prod.mk.injEq] at h <;> tauto

theorem detect_duplication_inner_spec (patterns : List String) (threshold : ℚ)
    (r1 : URLResult) :
    ∀ (rest : List URLResult) (processed : List (String × String)),
      (∀ r2 ∈ rest, pairKey r1.url r2.url ∉ processed) →
      (∀ r2 ∈ rest, r1.url ≠ r2.url) →
      List.Pairwise (fun a b => a.url ≠ b.url) rest →
      (detect_duplication_inner patterns threshold r1 rest processed).1 =
        specInnerIssues patterns threshold r1 rest ∧
      ∀ k ∈ (detect_duplication_inner patterns threshold r1 rest processed).2,
        k ∈ processed ∨ ∃ r2 ∈ rest, k = pairKey r1.url r2.url := by
  intro rest
  induction rest with
  | nil =>
    intro processed _ _ _
    refine ⟨rfl, ?_⟩
    intro k hk
    exact Or.inl hk
  | cons r2 rest ih =>
    intro processed hnk hne hpw
    by_cases hexcl : should_exclude patterns r2.url
    · have hrec := ih processed
        (fun x hx => hnk x (List.mem_cons_of_mem r2 hx))
        (fun x hx => hne x (List.mem_cons_of_mem r2 hx))
        (List.Pairwise.of_cons hpw)
      constructor
      · rw [detect_duplication_inner, if_pos hexcl, hrec.1]
        simp [specInnerIssues, hexcl]
      · rw [detect_duplication_inner, if_pos hexcl]
        intro k hk
        rcases hrec.2 k hk with h | ⟨x, hx, hk'⟩
        · exact Or.inl h
        · exact Or.inr ⟨x, List.mem_cons_of_mem r2 hx, hk'⟩
    · have hkey : pairKey r1.url r2.url ∉ processed :=
        hnk r2 (List.mem_cons_self r2 rest)
      have hnk' : ∀ x ∈ rest, pairKey r1.url x.url ∉ pairKey r1.url r2.url :: processed := by
        intro x hx
        intro hmem
        rcases List.mem_cons.mp hmem with heq | hmem'
        · rcases pairKey_eq_elim heq with ⟨_, h2⟩ | ⟨h1', _⟩
          · exact (List.rel_of_pairwise_cons hpw hx) h2.symm
          · exact hne r2 (List.mem_cons_self r2 rest) h1'
        · exact hnk x (List.mem_cons_of_mem r2 hx) hmem'
      have hrec := ih (pairKey r1.url r2.url :: processed) hnk'
        (fun x hx => hne x (List.mem_cons_of_mem r2 hx))
        (List.Pairwise.of_cons hpw)
      constructor
      · rw [detect_duplication_inner, if_neg hexcl]
        simp only [hkey, if_false, if_neg hkey]
        rw [hrec.1]
        simp [specInnerIssues, hexcl]
      · rw [detect_duplication_inner, if_neg hexcl]
        simp only [hkey, if_false, if_neg hkey]
        intro k hk
        rcases hrec.2 k hk with h | ⟨x, hx, hk'⟩
        · rcases List.mem_cons.mp h with heq | hmem'
          · exact Or.inr ⟨r2, List.mem_cons_self r2 rest, heq⟩
          · exact Or.inl hmem'
        · exact Or.inr ⟨x, List.mem_cons_of_mem r2 hx, hk'⟩

theorem detect_duplication_outer_spec (patterns : List String) (threshold : ℚ) :
    ∀ (results : List URLResult) (processed : List (String × String)),
      List.Pairwise (fun a b => a.url ≠ b.url) results →
      (∀ k ∈ processed, ∀ x ∈ results, ∀ y ∈ results, k ≠ pairKey x.url y.url) →
      detect_duplication_outer patterns threshold results processed =
        spec_duplication_issues patterns threshold results := by
  intro results
  induction results with
  | nil => intro processed _ _; rfl
  | cons r1 rest ih =>
    intro processed hpw hproc
    have hpw' := List.Pairwise.of_cons hpw
    by_cases hexcl : should_exclude patterns r1.url
    · rw [detect_duplication_outer, if_pos hexcl,
        spec_duplication_issues, if_pos hexcl,
        ih processed hpw' (fun k hk x hx y hy =>
          hproc k hk x (List.mem_cons_of_mem r1 hx) y (List.mem_cons_of_mem r1 hy))]
      rfl
    · have hinner := detect_duplication_inner_spec patterns threshold r1 rest processed
        (fun x hx h => hproc _ h r1 (List.mem_cons_self r1 rest) x
          (List.mem_cons_of_mem r1 hx) rfl)
        (fun x hx => List.rel_of_pairwise_cons hpw hx)
        hpw'
      have hproc' : ∀ k ∈ (detect_duplication_inner patterns threshold r1 rest processed).2,
          ∀ x ∈ rest, ∀ y ∈ rest, k ≠ pairKey x.url y.url := by
        intro k hk x hx y hy hkeq
        rcases hinner.2 k hk with hmem | ⟨r2, _, hk'⟩
        · exact hproc k hmem x (List.mem_cons_of_mem r1 hx) y
            (List.mem_cons_of_mem r1 hy) hkeq
        · rcases pairKey_eq_elim (hk' ▸ hkeq) with ⟨h1, _⟩ | ⟨h1, _⟩
          · exact (List.rel_of_pairwise_cons hpw hx) h1
          · exact (List.rel_of_pairwise_cons hpw hy) h1
      rw [detect_duplication_outer, if_neg hexcl,
        spec_duplication_issues, if_neg hexcl]
      show (detect_duplication_inner patterns threshold r1 rest processed).1 ++
          detect_duplication_outer patterns threshold rest
            (detect_duplication_inner patterns threshold r1 rest processed).2 =
          specInnerIssues patterns threshold r1 rest ++
            spec_duplication_issues patterns threshold rest
      rw [hinner.1, ih _ hpw' hproc']

/-! ## Excluded URLs receive no duplication issues -/
theorem detect_duplication_inner_not_excluded (patterns : List String) (threshold : ℚ)
    (r1 : URLResult) (h1 : should_exclude patterns r1.url = false) :
    ∀ (rest : List URLResult) (processed : List (String × String)),
      ∀ iss ∈ (detect_duplication_inner patterns threshold r1 rest processed).1,
        should_exclude patterns iss.url = false := by
  intro rest
  induction rest with
  | nil =>
    intro processed iss hmem
    simp [detect_duplication_inner] at hmem
  | cons r2 rest ih =>
    intro processed iss hmem
    by_cases hexcl : should_exclude patterns r2.url
    · rw [detect_duplication_inner, if_pos hexcl] at hmem
      exact ih processed iss hmem
    · by_cases hkey : pairKey r1.url r2.url ∈ processed
      · rw [detect_duplication_inner, if_neg hexcl] at hmem
        simp only [hkey, if_true] at hmem
        exact ih processed iss hmem
      · rw [detect_duplication_inner, if_neg hexcl] at hmem
        simp only [hkey, if_false, if_neg hkey] at hmem
        rcases List.mem_append.mp hmem with hh | ht
        · by_cases hsim : threshold ≤ calculate_content_similarity r1 r2
          · rw [if_pos hsim] at hh
            rcases List.mem_cons.mp hh with rfl | hh'
            · exact h1
            · rcases List.mem_cons.mp hh' with rfl | hh''
              · exact Bool.eq_false_iff.mpr hexcl
              · exact absurd hh'' (List.not_mem_nil _)
          · rw [if_neg hsim] at hh
            exact absurd hh (List.not_mem_nil _)
        · exact ih _ iss ht

theorem detect_duplication_outer_not_excluded (patterns : List String) (threshold : ℚ) :
    ∀ (results : List URLResult) (processed : List (String × String)),
      ∀ iss ∈ detect_duplication_outer patterns threshold results processed,
        should_exclude patterns iss.url = false := by
  intro results
  induction results with
  | nil =>
    intro processed iss hmem
    simp [detect_duplication_outer] at hmem
  | cons r1 rest ih =>
    intro processed iss hmem
    by_cases hexcl : should_exclude patterns r1.url
    · rw [detect_duplication_outer, if_pos hexcl] at hmem
      exact ih processed iss hmem
    · rw [detect_duplication_outer, if_neg hexcl] at hmem
      rcases List.mem_append.mp hmem with hh | ht
      · exact detect_duplication_inner_not_excluded patterns threshold r1
          (Bool.eq_false_iff.mpr hexcl) rest processed iss hh
      · exact ih _ iss ht

/-! ## Similarity extremes: identical records and fully disjoint records -/
theorem calculate_content_similarity_of_identical (r1 r2 : URLResult)
    (ht : pyLowerStrip r1.title = pyLowerStrip r2.title)
    (ht0 : pyLowerStrip r1.title ≠ "")
    (hd : pyLowerStrip r1.meta_description = pyLowerStrip r2.meta_description)
    (hd0 : pyLowerStrip r1.meta_description ≠ "")
    (hh : pyLowerStrip r1.h1 = pyLowerStrip r2.h1)
    (hh0 : pyLowerStrip r1.h1 ≠ "")
    (hw : r1.word_count = r2.word_count)
    (hw0 : r1.word_count ≠ 0) :
    calculate_content_similarity r1 r2 = 1 := by
  unfold calculate_content_similarity
  rw [← ht, ← hd, ← hh, ← hw]
  have hq : ((r1.word_count : ℚ)) ≠ 0 := by exact_mod_cast hw0
  simp [ht0, hd0, hh0, hw0, text_similarity, sequenceMatcherRatio_self,
    Nat.pos_of_ne_zero hw0, div_self hq]
  norm_num

/-- A string-score guard term vanishes when the two texts share no
character. -/
theorem stringTerm_zero_of_disjoint (t1 t2 : String)
    (h : ∀ c ∈ t1.data, c ∉ t2.data) :
    (if t1 ≠ "" ∧ t2 ≠ "" then text_similarity t1 t2 else 0) = 0 := by
  by_cases h1 : t1 = ""
  · simp [h1]
  · by_cases h2 : t2 = ""
    · simp [h2]
    · rw [if_pos ⟨h1, h2⟩]
      unfold text_similarity
      rw [if_neg (by tauto)]
      apply sequenceMatcherRatio_disjoint _ _ _ h
      have hd1 : t1.data ≠ [] := fun hc => h1 (by cases t1; simp_all)
      have := List.length_pos.mpr hd1
      omega

theorem calculate_content_similarity_le_of_disjoint (r1 r2 : URLResult)
    (ht : ∀ c ∈ (pyLowerStrip r1.title).data, c ∉ (pyLowerStrip r2.title).data)
    (hd : ∀ c ∈ (pyLowerStrip r1.meta_description).data,
      c ∉ (pyLowerStrip r2.meta_description).data)
    (hh : ∀ c ∈ (pyLowerStrip r1.h1).data, c ∉ (pyLowerStrip r2.h1).data) :
    calculate_content_similarity r1 r2 ≤ 1 / 10 := by
  simp only [calculate_content_similarity]
  rw [stringTerm_zero_of_disjoint _ _ ht, stringTerm_zero_of_disjoint _ _ hd,
    stringTerm_zero_of_disjoint _ _ hh]
  have hword : (if r1.word_count ≠ 0 ∧ r2.word_count ≠ 0 then
      (if 0 < max r1.word_count r2.word_count then
        ((min r1.word_count r2.word_count : Nat) : ℚ) /
          ((max r1.word_count r2.word_count : Nat) : ℚ) else 0)
    else 0) ≤ 1 := by
    by_cases hc : r1.word_count ≠ 0 ∧ r2.word_count ≠ 0
    · rw [if_pos hc]
      by_cases hm : 0 < max r1.word_count r2.word_count
      · rw [if_pos hm]
        rw [div_le_one (by exact_mod_cast hm)]
        exact_mod_cast
          (min_le_max : min r1.word_count r2.word_count ≤ max r1.word_count r2.word_count)
      · rw [if_neg hm]; norm_num
    · rw [if_neg hc]; norm_num
  nlinarith [hword]

theorem submitLoop_active_le (cfg : WorkerConfig) (crawled : Nat) :
    ∀ (pending : List (String × Nat)) (active : Nat), active ≤ cfg.maxWorkers →
      (submitLoop cfg crawled pending active).2 ≤ cfg.maxWorkers ∧
      ((submitLoop cfg crawled pending active).2 = active ∨ crawled < cfg.maxUrls) := by
  intro pending
  induction pending with
  | nil => intro active h; exact ⟨h, Or.inl rfl⟩
  | cons p rest ih =>
    intro active h
    rcases p with ⟨u, d⟩
    by_cases hg : active < cfg.maxWorkers ∧ crawled < cfg.maxUrls
    · rw [submitLoop, if_pos hg]
      by_cases hd : cfg.maxDepth < d
      · rw [if_pos hd]
        rcases ih active h with ⟨h1, _⟩
        exact ⟨h1, Or.inr hg.2⟩
      · rw [if_neg hd]
        rcases ih (active + 1) hg.1 with ⟨h1, _⟩
        exact ⟨h1, Or.inr hg.2⟩
    · rw [submitLoop, if_neg hg]
      exact ⟨h, Or.inl rfl⟩

theorem workerIter_invariant (cfg : WorkerConfig) (k : Nat) (s : WorkerState)
    (hsum : s.crawled + s.active < cfg.maxUrls + cfg.maxWorkers)
    (hact : s.active ≤ cfg.maxWorkers) :
    (workerIter cfg k s).crawled + (workerIter cfg k s).active <
      cfg.maxUrls + cfg.maxWorkers ∧
    (workerIter cfg k s).active ≤ cfg.maxWorkers := by
  simp only [workerIter]
  rcases submitLoop_active_le cfg s.crawled s.pending s.active hact with ⟨h1, h2⟩
  rcases h2 with heq | hlt
  · constructor
    · simp only [heq]
      omega
    · simp only [heq]
      omega
  · constructor
    · have : (submitLoop cfg s.crawled s.pending s.active).2 ≤ cfg.maxWorkers := h1
      omega
    · omega

theorem runWorker_budget (cfg : WorkerConfig) :
    ∀ (sched : List Nat) (s : WorkerState),
      s.crawled + s.active < cfg.maxUrls + cfg.maxWorkers →
      s.active ≤ cfg.maxWorkers →
      (runWorker cfg sched s).crawled < cfg.maxUrls + cfg.maxWorkers := by
  intro sched
  induction sched with
  | nil => intro s hsum _; simpa [runWorker] using by omega
  | cons k ks ih =>
    intro s hsum hact
    rcases workerIter_invariant cfg k s hsum hact with ⟨h1, h2⟩
    rw [runWorker]
    by_cases hb : cfg.maxUrls ≤ (workerIter cfg k s).crawled
    · rw [if_pos hb]; omega
    · rw [if_neg hb]
      by_cases hd : (workerIter cfg k s).pending = [] ∧ (workerIter cfg k s).active = 0
      · rw [if_pos hd]; omega
      · rw [if_neg hd]
        exact ih _ h1 h2

/-- Each iteration appends at most `min k active` results. -/
theorem workerIter_crawled_le (cfg : WorkerConfig) (k : Nat) (s : WorkerState) :
    (workerIter cfg k s).crawled ≤ s.crawled + k := by
  simp only [workerIter]
  omega

theorem runWorker_serial (cfg : WorkerConfig) :
    ∀ (sched : List Nat) (s : WorkerState),
      (∀ k ∈ sched, k ≤ 1) →
      s.crawled < cfg.maxUrls →
      (runWorker cfg sched s).crawled ≤ cfg.maxUrls := by
  intro sched
  induction sched with
  | nil => intro s _ h; simp [runWorker]; omega
  | cons k ks ih =>
    intro s hk h
    have hk1 : k ≤ 1 := hk k (List.mem_cons_self k ks)
    have hstep := workerIter_crawled_le cfg k s
    rw [runWorker]
    by_cases hb : cfg.maxUrls ≤ (workerIter cfg k s).crawled
    · rw [if_pos hb]; omega
    · rw [if_neg hb]
      by_cases hd : (workerIter cfg k s).pending = [] ∧ (workerIter cfg k s).active = 0
      · rw [if_pos hd]; omega
      · rw [if_neg hd]
        exact ih _ (fun x hx => hk x (List.mem_cons_of_mem k hx)) (by omega)

/-- With `max_depth = 0` the crawl of a single seed records exactly that one
page no matter what it links to. -/
theorem crawlFrom_depth_zero (links : String → List String) (maxUrls : Nat)
    (hm : 1 ≤ maxUrls) (seed : String) (discovered : List String) (fuel : Nat) :
    crawlFrom links 0 maxUrls (fuel + 2) [(seed, 0)] discovered [] = [seed] := by
  rw [crawlFrom]
  rw [if_neg (by simp; omega), if_neg (by omega)]
  simp [crawlFrom]

/-- Running the duplication pass on exactly two non-excluded records whose
similarity reaches the threshold yields exactly one warning per URL, each
citing the other. -/
theorem detect_duplication_pair (patterns : List String) (threshold : ℚ)
    (r1 r2 : URLResult)
    (he1 : should_exclude patterns r1.url = false)
    (he2 : should_exclude patterns r2.url = false)
    (hsim : threshold ≤ calculate_content_similarity r1 r2) :
    detect_duplication_issues patterns threshold [r1, r2] =
      [mkDupIssue r1.url (calculate_content_similarity r1 r2) r2.url,
       mkDupIssue r2.url (calculate_content_similarity r1 r2) r1.url] := by
  simp [detect_duplication_issues, detect_duplication_outer, detect_duplication_inner,
    he1, he2, hsim]

/-! ## Claim theorems -/

/-- C1 (amended): the worker loop submits only while `crawled < max_urls`
but appends every completed future, so a completed crawl satisfies
`crawled < max_urls + concurrency` (not `crawled ≤ max_urls`); when at most
one in-flight fetch completes per scheduler pass (e.g. `concurrency = 1`),
`crawled ≤ max_urls` does hold. -/
theorem claim_C1 (cfg : WorkerConfig) (sched : List Nat)
    (pending : List (String × Nat)) (hU : 1 ≤ cfg.maxUrls) :
    (runWorker cfg sched ⟨pending, 0, 0⟩).crawled < cfg.maxUrls + cfg.maxWorkers ∧
    ((∀ k ∈ sched, k ≤ 1) →
      (runWorker cfg sched ⟨pending, 0, 0⟩).crawled ≤ cfg.maxUrls) := by
  constructor
  · exact runWorker_budget cfg sched ⟨pending, 0, 0⟩
      (show 0 + 0 < cfg.maxUrls + cfg.maxWorkers by omega) (Nat.zero_le _)
  · intro hk
    exact runWorker_serial cfg sched ⟨pending, 0, 0⟩ hk
      (show 0 < cfg.maxUrls by omega)

/-- C1 counterexample: with `max_urls = 2`, `concurrency = 5` and ten
internal pages pending, a scheduler pass in which all five submitted fetches
complete yields a finished crawl with 5 URL records — more than `max_urls`
and not the expected 2. -/
theorem claim_C1_counterexample :
    (runWorker ⟨2, 5, 3⟩ [5] ⟨tenPagePending, 0, 0⟩).crawled = 5 ∧ 2 < 5 := by
  decide

theorem claim_C1_witness :
    1 ≤ (2 : Nat) ∧
    (runWorker ⟨2, 1, 3⟩ [1, 1, 1] ⟨tenPagePending, 0, 0⟩).crawled < 2 + 1 ∧
    (runWorker ⟨2, 1, 3⟩ [1, 1, 1] ⟨tenPagePending, 0, 0⟩).crawled ≤ 2 ∧
    (runWorker ⟨2, 1, 3⟩ [1, 1, 1] ⟨tenPagePending, 0, 0⟩).crawled = 2 :=
  ⟨by decide,
   (claim_C1 ⟨2, 1, 3⟩ [1, 1, 1] tenPagePending (by decide)).1,
   (claim_C1 ⟨2, 1, 3⟩ [1, 1, 1] tenPagePending (by decide)).2 (by decide),
   by decide⟩

/-- C2: for every pair of URL records the duplicate-content similarity
computed by `_calculate_content_similarity` equals the specification's
weighted formula `0.35·S(title) + 0.35·S(meta_desc) + 0.20·S(h1) + 0.10·W`,
with each string-ratio term 0 when either lowercased-trimmed side is empty
and the word-count term 0 when either word count is 0. -/
theorem claim_C2 (r1 r2 : URLResult) :
    calculate_content_similarity r1 r2 = spec_similarity r1 r2 :=
  calculate_content_similarity_eq_spec r1 r2

/-- C3: over a completed result list (pairwise-distinct URLs), the
duplication pass emits, for every unordered pair of distinct non-excluded
records, exactly one warning on each of the two URLs — each naming the other
URL and the similarity percentage — when the similarity reaches the
threshold, and nothing for pairs below it. -/
theorem claim_C3 (patterns : List String) (threshold : ℚ)
    (results : List URLResult)
    (hdistinct : List.Pairwise (fun a b => a.url ≠ b.url) results) :
    detect_duplication_issues patterns threshold results =
      spec_duplication_issues patterns threshold results :=
  detect_duplication_outer_spec patterns threshold results [] hdistinct (by simp)

theorem claim_C3_witness :
    detect_duplication_issues [] (85 / 100) [recHomeA, recHomeB] =
      spec_duplication_issues [] (85 / 100) [recHomeA, recHomeB] :=
  claim_C3 [] (85 / 100) [recHomeA, recHomeB] (by decide)

/-- C4 counterexample: two records with identical title, meta description,
h1 and word count — all empty/zero — have similarity 0, not 1.0, and are not
flagged at the default threshold. -/
theorem claim_C4_counterexample :
    recEmptyA.title = recEmptyB.title ∧
    recEmptyA.meta_description = recEmptyB.meta_description ∧
    recEmptyA.h1 = recEmptyB.h1 ∧
    recEmptyA.word_count = recEmptyB.word_count ∧
    calculate_content_similarity recEmptyA recEmptyB = 0 ∧
    calculate_content_similarity recEmptyA recEmptyB ≠ 1 ∧
    detect_duplication_issues [] (85 / 100) [recEmptyA, recEmptyB] = [] := by
  have hsim : calculate_content_similarity recEmptyA recEmptyB = 0 := by
    simp [calculate_content_similarity, recEmptyA, recEmptyB, mkPage,
      pyLowerStrip, pyLower, pyStrip]
  refine ⟨rfl, rfl, rfl, rfl, hsim, by rw [hsim]; norm_num, ?_⟩
  simp [detect_duplication_issues, detect_duplication_outer, detect_duplication_inner,
    should_exclude, hsim, (show ¬((85 / 100 : ℚ) ≤ 0) by norm_num)]

/-- C4 (amended): similarity is 1.0 — and both records are flagged at the
default threshold — when the identical title, meta description and h1 are
non-empty after lowercasing/trimming and the identical word count is
positive; records disjoint in all three text fields stay below the
threshold whatever their word counts. -/
theorem claim_C4 :
    (∀ (patterns : List String) (r1 r2 : URLResult),
      pyLowerStrip r1.title = pyLowerStrip r2.title →
      pyLowerStrip r1.title ≠ "" →
      pyLowerStrip r1.meta_description = pyLowerStrip r2.meta_description →
      pyLowerStrip r1.meta_description ≠ "" →
      pyLowerStrip r1.h1 = pyLowerStrip r2.h1 →
      pyLowerStrip r1.h1 ≠ "" →
      r1.word_count = r2.word_count →
      r1.word_count ≠ 0 →
      should_exclude patterns r1.url = false →
      should_exclude patterns r2.url = false →
      calculate_content_similarity r1 r2 = 1 ∧
      detect_duplication_issues patterns (85 / 100) [r1, r2] =
        [mkDupIssue r1.url 1 r2.url, mkDupIssue r2.url 1 r1.url]) ∧
    (∀ r1 r2 : URLResult,
      (∀ c ∈ (pyLowerStrip r1.title).data, c ∉ (pyLowerStrip r2.title).data) →
      (∀ c ∈ (pyLowerStrip r1.meta_description).data,
        c ∉ (pyLowerStrip r2.meta_description).data) →
      (∀ c ∈ (pyLowerStrip r1.h1).data, c ∉ (pyLowerStrip r2.h1).data) →
      calculate_content_similarity r1 r2 < 85 / 100) := by
  constructor
  · intro patterns r1 r2 ht ht0 hd hd0 hh hh0 hw hw0 he1 he2
    have hsim := calculate_content_similarity_of_identical r1 r2 ht ht0 hd hd0 hh hh0 hw hw0
    refine ⟨hsim, ?_⟩
    have hpair := detect_duplication_pair patterns (85 / 100) r1 r2 he1 he2
      (by rw [hsim]; norm_num)
    rw [hpair, hsim]
  · intro r1 r2 ht hd hh
    calc calculate_content_similarity r1 r2
        ≤ 1 / 10 := calculate_content_similarity_le_of_disjoint r1 r2 ht hd hh
      _ < 85 / 100 := by norm_num

theorem claim_C4_witness :
    (calculate_content_similarity recHomeA recHomeB = 1 ∧
      detect_duplication_issues [] (85 / 100) [recHomeA, recHomeB] =
        [mkDupIssue recHomeA.url 1 recHomeB.url, mkDupIssue recHomeB.url 1 recHomeA.url]) ∧
    calculate_content_similarity (mkPage "https://site.test/p" "abc" "def" "gh" 10)
      (mkPage "https://site.test/q" "xyz" "uvw" "qr" 11) < 85 / 100 :=
  ⟨claim_C4.1 [] recHomeA recHomeB (by decide) (by decide) (by decide) (by decide)
      (by decide) (by decide) (by decide) (by decide) (by decide) (by decide),
   claim_C4.2 (mkPage "https://site.test/p" "abc" "def" "gh" 10)
      (mkPage "https://site.test/q" "xyz" "uvw" "qr" 11) (by decide) (by decide) (by decide)⟩

/-- C5: a record whose URL path matches a configured exclusion pattern gets
zero issues: the per-page pass returns nothing, and no duplication issue can
carry its URL. -/
theorem claim_C5 (patterns : List String) (r : URLResult)
    (h : should_exclude patterns r.url = true) :
    detect_issues patterns r = [] ∧
    ∀ (threshold : ℚ) (results : List URLResult),
      ∀ iss ∈ detect_duplication_issues patterns threshold results, iss.url ≠ r.url := by
  constructor
  · unfold detect_issues
    rw [if_pos h]
  · intro threshold results iss hmem heq
    have hne := detect_duplication_outer_not_excluded patterns threshold results [] iss hmem
    rw [heq, h] at hne
    exact absurd hne (by decide)

theorem claim_C5_witness :
    detect_issues ["/admin/*"] (mkPage "https://site.test/admin/panel" "" "" "" 0) = [] ∧
    ∀ (threshold : ℚ) (results : List URLResult),
      ∀ iss ∈ detect_duplication_issues ["/admin/*"] threshold results,
        iss.url ≠ (mkPage "https://site.test/admin/panel" "" "" "" 0).url :=
  claim_C5 ["/admin/*"] (mkPage "https://site.test/admin/panel" "" "" "" 0) (by decide)

/-- C6: a seed whose parsed path is neither empty nor `/` clamps `max_depth`
to 0, and a depth-0 crawl of that seed records exactly one page no matter
what the page links to; a root or empty path leaves `max_depth` unchanged. -/
theorem claim_C6 (url : String) (maxDepth : Nat) :
    ((urlPath (normalizeSeedScheme url) ≠ "" ∧ urlPath (normalizeSeedScheme url) ≠ "/") →
      clampedMaxDepth url maxDepth = 0 ∧
      ∀ (links : String → List String) (maxUrls fuel : Nat), 1 ≤ maxUrls →
        crawlFrom links (clampedMaxDepth url maxDepth) maxUrls (fuel + 2)
          [(normalizeSeedScheme url, 0)] [normalizeSeedScheme url] [] =
          [normalizeSeedScheme url]) ∧
    ((urlPath (normalizeSeedScheme url) = "" ∨ urlPath (normalizeSeedScheme url) = "/") →
      clampedMaxDepth url maxDepth = maxDepth) := by
  constructor
  · intro h
    have hc : clampedMaxDepth url maxDepth = 0 := by
      simp only [clampedMaxDepth]
      rw [if_pos h]
    refine ⟨hc, ?_⟩
    intro links maxUrls fuel hm
    rw [hc]
    exact crawlFrom_depth_zero links maxUrls hm _ _ fuel
  · intro h
    simp only [clampedMaxDepth]
    rw [if_neg (by tauto)]

theorem claim_C6_witness :
    clampedMaxDepth "https://example.test/only-this" 3 = 0 ∧
    crawlFrom (fun _ => ["https://example.test/other"])
      (clampedMaxDepth "https://example.test/only-this" 3) 1000 7
      [("https://example.test/only-this", 0)] ["https://example.test/only-this"] [] =
      ["https://example.test/only-this"] ∧
    clampedMaxDepth "https://example.test/" 3 = 3 :=
  ⟨((claim_C6 "https://example.test/only-this" 3).1 (by decide)).1,
   ((claim_C6 "https://example.test/only-this" 3).1 (by decide)).2
     (fun _ => ["https://example.test/other"]) 1000 5 (by decide),
   (claim_C6 "https://example.test/" 3).2 (by decide)⟩

/-- C7 (amended): with the crawler idle, a terminal stored status can still
be left in exactly two ways the source provides: `stop_crawl` records
`stopped` unconditionally when persistence is enabled, and
`resume_from_database` moves a `failed` crawl back to `running`; every other
operation leaves a terminal status unchanged. -/
theorem claim_C7 (s : CrawlerState) (op : CrawlOp)
    (hrun : s.isRunning = false) (hterm : terminalStatus s.dbStatus = true) :
    (applyOp op s).dbStatus = s.dbStatus ∨
    (op = .stop ∧ s.dbEnabled = true ∧ (applyOp op s).dbStatus = .stopped) ∨
    (op = .resumeFromStore ∧ s.dbStatus = .failed ∧
      (applyOp op s).dbStatus = .running) := by
  cases op with
  | workerFinish => left; simp [applyOp, hrun]
  | stop =>
    by_cases hdb : s.dbEnabled = true
    · right; left
      exact ⟨rfl, hdb, by simp [applyOp, hdb]⟩
    · left
      simp only [Bool.not_eq_true] at hdb
      simp [applyOp, hdb]
  | pause => left; simp [applyOp, hrun]
  | resumeInMemory => left; simp [applyOp, hrun]
  | resumeFromStore =>
    by_cases hres : resumableStatus s.dbStatus = true
    · right; right
      have hfail : s.dbStatus = .failed := by
        cases hs : s.dbStatus <;>
          rw [hs] at hterm hres <;>
            first
            | rfl
            | simp [terminalStatus, resumableStatus] at hterm hres
      exact ⟨rfl, hfail, by simp [applyOp, hrun, hres]⟩
    · left
      simp only [Bool.not_eq_true] at hres
      simp [applyOp, hrun, hres]

/-- C7 counterexample: `resume_from_database` accepts a crawl whose stored
status is the terminal `failed` and sets it back to `running`, so terminal
states can be left. -/
theorem claim_C7_counterexample :
    terminalStatus CrawlStatus.failed = true ∧
    (applyOp .resumeFromStore ⟨.failed, false, false, true⟩).dbStatus = .running ∧
    CrawlStatus.running ≠ CrawlStatus.failed := by
  decide

theorem claim_C7_witness :
    (applyOp .pause ⟨.stopped, false, false, true⟩).dbStatus =
        (⟨.stopped, false, false, true⟩ : CrawlerState).dbStatus ∨
    (CrawlOp.pause = .stop ∧ (⟨.stopped, false, false, true⟩ : CrawlerState).dbEnabled = true ∧
      (applyOp .pause ⟨.stopped, false, false, true⟩).dbStatus = .stopped) ∨
    (CrawlOp.pause = .resumeFromStore ∧
      (⟨.stopped, false, false, true⟩ : CrawlerState).dbStatus = .failed ∧
      (applyOp .pause ⟨.stopped, false, false, true⟩).dbStatus = .running) :=
  claim_C7 ⟨.stopped, false, false, true⟩ .pause (by decide) (by decide)

/-- C8: `resume_from_database` returns `ok = false` with the crawler memory
untouched, no worker started and no status written whenever the stored row
is absent or its status is outside {paused, failed, running}; and whenever
it returns `ok = true` the stored status was in that set, the status is set
to `running` and the worker thread is started. -/
theorem claim_C8 (mem : ResumeMemory) (row : Option CrawlRow)
    (crawlId : Nat) (userId : Option Nat) :
    ((row = none ∨ ∃ c, row = some c ∧ resumableStatus c.status = false) →
      resume_from_database mem row crawlId userId = ⟨false, mem, none⟩) ∧
    ((resume_from_database mem row crawlId userId).ok = true →
      (∃ c, row = some c ∧ resumableStatus c.status = true) ∧
      (resume_from_database mem row crawlId userId).statusWrite =
        some CrawlStatus.running ∧
      (resume_from_database mem row crawlId userId).mem.workerStarted = true ∧
      (resume_from_database mem row crawlId userId).mem.isRunning = true) := by
  constructor
  · intro hbad
    by_cases hr : mem.isRunning = true
    · simp [resume_from_database, hr]
    · simp only [Bool.not_eq_true] at hr
      rcases hbad with rfl | ⟨c, rfl, hc⟩
      · simp [resume_from_database, hr, get_resume_data]
      · simp [resume_from_database, hr, get_resume_data, hc]
  · intro hok
    by_cases hr : mem.isRunning = true
    · simp [resume_from_database, hr] at hok
    · simp only [Bool.not_eq_true] at hr
      cases row with
      | none => simp [resume_from_database, hr, get_resume_data] at hok
      | some c =>
        by_cases hc : resumableStatus c.status = true
        · by_cases hu : userId.isSome = true ∧ ¬c.userId = userId
          · exfalso
            simp [resume_from_database, hr, get_resume_data, hc, hu] at hok
          · refine ⟨⟨c, rfl, hc⟩, ?_, ?_, ?_⟩ <;>
              simp [resume_from_database, hr, get_resume_data, hc, hu]
        · simp only [Bool.not_eq_true] at hc
          simp [resume_from_database, hr, get_resume_data, hc] at hok

theorem claim_C8_witness :
    resume_from_database ⟨false, none, false, false⟩ (some ⟨.completed, none⟩) 7 none =
      ⟨false, ⟨false, none, false, false⟩, none⟩ :=
  (claim_C8 ⟨false, none, false, false⟩ (some ⟨.completed, none⟩) 7 none).1
    (Or.inr ⟨⟨.completed, none⟩, rfl, by decide⟩)

/-- C9: the claim fails on the HTTP path — `_crawl_url_with_requests` never
calls `rate_limiter.acquire()` even when `delay > 0` (the limiter is built
but unused there, despite the submit loop's comment), while the browser path
does acquire before rendering exactly when `delay > 0`. -/
theorem claim_C9 :
    FetchEvent.rateLimiterAcquire ∉ http_path_events 1 (50 * 1024 * 1024) ∧
    FetchEvent.httpGetRequest ∈ http_path_events 1 (50 * 1024 * 1024) ∧
    (∀ (delay : ℚ) (max_file_size : Nat),
      FetchEvent.rateLimiterAcquire ∉ http_path_events delay max_file_size) ∧
    js_path_events 1 = [FetchEvent.rateLimiterAcquire, FetchEvent.browserRender] ∧
    js_path_events 0 = [FetchEvent.browserRender] := by
  refine ⟨by decide, by decide, ?_, ?_, ?_⟩
  · intro delay max_file_size
    by_cases hm : 0 < max_file_size <;> simp [http_path_events, hm]
  · unfold js_path_events
    rw [if_pos (by norm_num : (0 : ℚ) < 1)]
    rfl
  · unfold js_path_events
    rw [if_neg (lt_irrefl (0 : ℚ))]
    rfl

/-- C10: `get_status` reports only `idle`, `running` or `completed`: `idle`
iff not running with nothing crawled, `completed` iff not running with a
positive crawled counter (hence also after a stop), `running` otherwise; the
pause flag is never consulted. -/
theorem claim_C10 (is_running is_paused : Bool) (crawled : Nat) :
    (get_status_label is_running is_paused crawled = .idle ∨
     get_status_label is_running is_paused crawled = .running ∨
     get_status_label is_running is_paused crawled = .completed) ∧
    (get_status_label is_running is_paused crawled = .idle ↔
      is_running = false ∧ crawled = 0) ∧
    (get_status_label is_running is_paused crawled = .completed ↔
      is_running = false ∧ 0 < crawled) ∧
    (get_status_label is_running is_paused crawled = .running ↔ is_running = true) ∧
    (∀ p2 : Bool, get_status_label is_running is_paused crawled =
      get_status_label is_running p2 crawled) := by
  refine ⟨?_, ?_, ?_, ?_, fun _ => rfl⟩ <;>
    cases is_running <;> rcases crawled with _ | n <;>
      simp [get_status_label]

end SeoCrawler

